import Mathlib

/-!
Shallow embedding of the single-sphere ray tracer in `src/main.rs`.

Floating-point numbers (`f32`, `f64`) are modelled as real numbers.  The one
place where IEEE semantics is observable on the values this program computes
is `powf` applied to a negative base with a non-integer exponent, which
returns NaN in Rust; `gamma_encode` / `gamma_decode` therefore return
`Option ℝ`, with `none` standing for NaN, and the `as u8` cast maps NaN
to `0` (saturating truncation otherwise), exactly as Rust's `as` cast does.

The `assert!(scene.width > scene.height)` in `Ray::create_prime` is modelled
by returning `Option Ray`: `none` is the aborted (panicked) computation.
`render`'s nested `for` loops are modelled by the `forRange` traversal, which
propagates the first abort, so `render` returns `none` exactly when some
executed loop iteration panics.
-/

/-- 3-component vector of f64 values (both `Point3<f64>` and `Vector3<f64>`
from cgmath are modelled by this type; cgmath's point minus point yields a
vector, and all operations used here are componentwise). -/
structure Vec3 where
  x : ℝ
  y : ℝ
  z : ℝ

/-- cgmath dot product. -/
noncomputable def Vec3.dot (a b : Vec3) : ℝ :=
  a.x * b.x + a.y * b.y + a.z * b.z

/-- Componentwise subtraction (`Point3 - Point3` in cgmath). -/
noncomputable def Vec3.sub (a b : Vec3) : Vec3 :=
  ⟨a.x - b.x, a.y - b.y, a.z - b.z⟩

/-- Componentwise addition (used to state translation invariance). -/
noncomputable def Vec3.add (a b : Vec3) : Vec3 :=
  ⟨a.x + b.x, a.y + b.y, a.z + b.z⟩

/-- Scalar multiplication. -/
noncomputable def Vec3.smul (k : ℝ) (v : Vec3) : Vec3 :=
  ⟨k * v.x, k * v.y, k * v.z⟩

/-- cgmath `InnerSpace::normalize`: `v / |v|`. -/
noncomputable def Vec3.normalize (v : Vec3) : Vec3 :=
  Vec3.smul (1 / Real.sqrt (Vec3.dot v v)) v

/-- `struct Color { red: f32, green: f32, blue: f32 }`. -/
structure Color where
  red : ℝ
  green : ℝ
  blue : ℝ

/-- `const GAMMA: f32 = 2.2`. -/
noncomputable def GAMMA : ℝ := 2.2

/-- `fn gamma_encode(linear: f32) -> f32 { linear.powf(1.0 / GAMMA) }`.
`powf` on a negative base with the non-integer exponent `1/2.2` yields NaN,
modelled as `none`. -/
noncomputable def gamma_encode (linear : ℝ) : Option ℝ :=
  if linear < 0 then none else some (linear ^ (1 / GAMMA))

/-- `fn gamma_decode(encoded: f32) -> f32 { encoded.powf(GAMMA) }`; NaN for a
negative base, modelled as `none`. -/
noncomputable def gamma_decode (encoded : ℝ) : Option ℝ :=
  if encoded < 0 then none else some (encoded ^ GAMMA)

/-- `Color::clamp`: each channel `.min(1.0).max(0.0)`. -/
noncomputable def Color.clamp (c : Color) : Color :=
  ⟨max (min c.red 1) 0, max (min c.green 1) 0, max (min c.blue 1) 0⟩

/-- An `Rgba<u8>` pixel: four 8-bit channels, stored as naturals in 0..255. -/
structure Rgba where
  r : ℕ
  g : ℕ
  b : ℕ
  a : ℕ

/-- `Rgba::from_channels`. -/
def Rgba.from_channels (r g b a : ℕ) : Rgba := ⟨r, g, b, a⟩

/-- Rust's `as u8` cast on a (non-NaN) float: truncation toward zero,
saturating into `[0, 255]`.  Negative values floor to a negative integer
whose `toNat` is `0`, matching the saturation at the low end. -/
noncomputable def as_u8 (v : ℝ) : ℕ :=
  min (Int.toNat ⌊v⌋) 255

/-- One channel of `Color::to_rgba`: `(gamma_encode(chan) * 255.0) as u8`,
with NaN (`none`) cast to `0` as Rust's `as u8` does. -/
noncomputable def encode_channel (chan : ℝ) : ℕ :=
  match gamma_encode chan with
  | none => 0
  | some e => as_u8 (e * 255)

/-- `Color::to_rgba` (alpha is the constant 255). -/
noncomputable def Color.to_rgba (c : Color) : Rgba :=
  Rgba.from_channels (encode_channel c.red) (encode_channel c.green)
    (encode_channel c.blue) 255

/-- `Color::from_rgba`: gamma-decode each 8-bit channel divided by 255.
The result is `none` if any decode is NaN (never the case for byte inputs). -/
noncomputable def Color.from_rgba (p : Rgba) : Option Color :=
  match gamma_decode ((p.r : ℝ) / 255), gamma_decode ((p.g : ℝ) / 255),
      gamma_decode ((p.b : ℝ) / 255) with
  | some red, some green, some blue => some ⟨red, green, blue⟩
  | _, _, _ => none

/-- `struct Sphere { center, radius, color }`. -/
structure Sphere where
  center : Vec3
  radius : ℝ
  color : Color

/-- `struct Scene { width: u32, height: u32, fov: f64, sphere }`. -/
structure Scene where
  width : ℕ
  height : ℕ
  fov : ℝ
  sphere : Sphere

/-- `struct Ray { origin, direction }`. -/
structure Ray where
  origin : Vec3
  direction : Vec3

/-- The inner `sensor` helper of `Ray::create_prime`:
pixel center `v + 0.5`, divided by `scene.width` (for BOTH axes), then
mapped from (0,1) to (-1,1) by `t * 2 - 1`. -/
noncomputable def sensor (scene : Scene) (v : ℕ) : ℝ :=
  ((v : ℝ) + 0.5) / (scene.width : ℝ) * 2 - 1

/-- `f64::to_radians`: degrees times π/180. -/
noncomputable def toRadians (d : ℝ) : ℝ := d * Real.pi / 180

/-- `(scene.fov.to_radians() / 2.0).tan()`. -/
noncomputable def fov_adjustment (scene : Scene) : ℝ :=
  Real.tan (toRadians scene.fov / 2)

/-- `let aspect_ratio = (scene.width as f64) / (scene.height as f64)`. -/
noncomputable def aspectRatio (scene : Scene) : ℝ :=
  (scene.width : ℝ) / (scene.height : ℝ)

/-- `Ray::create_prime`.  The leading `assert!(scene.width > scene.height)`
is modelled by returning `none` (panic) when the assertion fails. -/
noncomputable def Ray.create_prime (x y : ℕ) (scene : Scene) : Option Ray :=
  if scene.height < scene.width then
    some { origin := ⟨0, 0, 0⟩
           direction := Vec3.normalize
             ⟨sensor scene x * fov_adjustment scene * aspectRatio scene,
              -(sensor scene y) * fov_adjustment scene,
              -1⟩ }
  else none

/-- `Sphere::intersect` (the `Intersectable` impl): with
`l = center - origin`, `adj2 = l·direction`, `d2 = l·l - adj2²`,
report a hit iff `d2 < radius²`. -/
noncomputable def Sphere.intersect (s : Sphere) (ray : Ray) : Prop :=
  let l := Vec3.sub s.center ray.origin
  let adj2 := Vec3.dot l ray.direction
  let d2 := Vec3.dot l l - adj2 * adj2
  d2 < s.radius * s.radius

/-- `let black = Rgba::from_channels(0, 0, 0, 0)` in `render`. -/
def rgbaBlack : Rgba := Rgba.from_channels 0 0 0 0

open Classical in
/-- The body of `render`'s inner loop for one pixel: build the prime ray
(possibly panicking, hence `Option`), then write either the sphere's
encoded color or black. -/
noncomputable def renderPixel (scene : Scene) (x y : ℕ) : Option Rgba :=
  (Ray.create_prime x y scene).map (fun ray =>
    if scene.sphere.intersect ray then scene.sphere.color.to_rgba
    else rgbaBlack)

/-- Run `f 0, f 1, ..., f (n-1)` in order, collecting results, aborting at
the first `none` — the effect of a Rust `for i in 0..n` loop whose body can
panic. -/
noncomputable def forRange {α : Type} (f : ℕ → Option α) : ℕ → Option (List α)
  | 0 => some []
  | n + 1 => (forRange f n).bind (fun l => (f n).map (fun v => l ++ [v]))

/-- `render`: `for x in 0..width { for y in 0..height { ... } }`.  The image
is the list of columns (indexed by `x`), each a list of pixels (indexed by
`y`); `none` is the panicked run. -/
noncomputable def render (scene : Scene) : Option (List (List Rgba)) :=
  forRange (fun x => forRange (fun y => renderPixel scene x y) scene.height)
    scene.width

/-- The scene constructed in `main` (and in `test_can_render_scene`):
800×600, fov 90, one sphere at (0,0,-5) with radius 1, color (0.4, 1.0, 0.4). -/
noncomputable def scene800 : Scene :=
  { width := 800
    height := 600
    fov := 90
    sphere :=
      { center := ⟨0, 0, -5⟩
        radius := 1
        color := ⟨0.4, 1.0, 0.4⟩ } }

/-! ### Helper lemmas -/

/-- Extensionality for `Vec3` via the constructor injectivity. -/
theorem Vec3.ext_mk {a b : Vec3} (hx : a.x = b.x) (hy : a.y = b.y)
    (hz : a.z = b.z) : a = b := by
  cases a; cases b; simp_all

/-- Dot product of a vector scaled on both sides. -/
theorem Vec3.dot_smul_self (k : ℝ) (v : Vec3) :
    Vec3.dot (Vec3.smul k v) (Vec3.smul k v) = k ^ 2 * Vec3.dot v v := by
  simp only [Vec3.dot, Vec3.smul]
  ring

/-- Dot product with a scaled right argument. -/
theorem Vec3.dot_smul_right (k : ℝ) (u v : Vec3) :
    Vec3.dot u (Vec3.smul k v) = k * Vec3.dot u v := by
  simp only [Vec3.dot, Vec3.smul]
  ring

/-- The `as u8` cast saturates to 255 for inputs at or above 255. -/
theorem as_u8_of_le (v : ℝ) (h : (255 : ℝ) ≤ v) : as_u8 v = 255 := by
  have hfloor : (255 : ℤ) ≤ ⌊v⌋ := by
    rw [Int.le_floor]
    exact_mod_cast h
  have htn : 255 ≤ Int.toNat ⌊v⌋ := by omega
  simp only [as_u8]
  omega

/-! ### C6, C10, C4, C9 -/

/-- C6: the intersection test reports a hit exactly when
`dot(l,l) - dot(l,direction)^2 < radius^2` with `l = center - origin`, and,
having no `adjacent ≥ 0` guard, it reports a hit for a concrete sphere lying
entirely behind the ray origin (`adjacent = -5 < 0`). -/
theorem intersect_iff_dsq_lt_rsq_and_behind_hit :
    (∀ (s : Sphere) (r : Ray),
        s.intersect r ↔
          Vec3.dot (Vec3.sub s.center r.origin) (Vec3.sub s.center r.origin) -
              Vec3.dot (Vec3.sub s.center r.origin) r.direction ^ 2 <
            s.radius ^ 2) ∧
    (∃ (s : Sphere) (r : Ray),
        Vec3.dot (Vec3.sub s.center r.origin) r.direction < 0 ∧
          s.intersect r) := by
  constructor
  · intro s r
    simp only [Sphere.intersect]
    constructor <;> intro h <;> nlinarith [h]
  · refine ⟨⟨⟨0, 0, 5⟩, 1, ⟨1, 1, 1⟩⟩, ⟨⟨0, 0, 0⟩, ⟨0, 0, -1⟩⟩, ?_, ?_⟩
    · norm_num [Vec3.dot, Vec3.sub]
    · norm_num [Sphere.intersect, Vec3.dot, Vec3.sub]

/-- C10: joint translation of the sphere center and the ray origin by any
vector `t` leaves the hit/miss result unchanged, since the test depends on
them only through `l = center - origin`. -/
theorem intersect_translation_invariant (s : Sphere) (r : Ray) (t : Vec3) :
    Sphere.intersect ⟨Vec3.add s.center t, s.radius, s.color⟩
        ⟨Vec3.add r.origin t, r.direction⟩ ↔ s.intersect r := by
  have h : Vec3.sub (Vec3.add s.center t) (Vec3.add r.origin t) =
      Vec3.sub s.center r.origin := by
    refine Vec3.ext_mk ?_ ?_ ?_ <;> simp [Vec3.sub, Vec3.add]
  simp only [Sphere.intersect]
  rw [h]

/-- C4 counterexample: the sphere with radius `-2` has radius ≤ 0, yet the
ray from the origin straight through its center registers a hit, because
`radius² = 4 > 0` and the center-line distance is 0.  This refutes the claim
that every non-positive-radius sphere misses every ray. -/
theorem intersect_negative_radius_hit :
    ((⟨⟨0, 0, -5⟩, -2, ⟨1, 1, 1⟩⟩ : Sphere).radius ≤ 0) ∧
      (⟨⟨0, 0, -5⟩, -2, ⟨1, 1, 1⟩⟩ : Sphere).intersect ⟨⟨0, 0, 0⟩, ⟨0, 0, -1⟩⟩ := by
  constructor
  · norm_num
  · norm_num [Sphere.intersect, Vec3.dot, Vec3.sub]

/-- C4 (amended): a sphere of radius exactly 0 is missed by every ray whose
direction is unit length (`d² ≥ 0 = radius²` by Cauchy–Schwarz). -/
theorem intersect_zero_radius_unit_miss (s : Sphere) (r : Ray)
    (hrad : s.radius = 0) (hunit : Vec3.dot r.direction r.direction = 1) :
    ¬ s.intersect r := by
  simp only [Vec3.dot] at hunit
  simp only [Sphere.intersect, Vec3.dot, Vec3.sub, hrad, mul_zero, not_lt]
  nlinarith [hunit,
    sq_nonneg ((s.center.x - r.origin.x) * r.direction.y -
      (s.center.y - r.origin.y) * r.direction.x),
    sq_nonneg ((s.center.x - r.origin.x) * r.direction.z -
      (s.center.z - r.origin.z) * r.direction.x),
    sq_nonneg ((s.center.y - r.origin.y) * r.direction.z -
      (s.center.z - r.origin.z) * r.direction.y)]

/-- C4 witness: the amended theorem applied to a concrete radius-0 sphere and
the concrete unit ray pointing down the negative z axis. -/
theorem intersect_zero_radius_unit_miss_witness :
    ¬ (⟨⟨0, 0, -5⟩, 0, ⟨1, 1, 1⟩⟩ : Sphere).intersect ⟨⟨0, 0, 0⟩, ⟨0, 0, -1⟩⟩ :=
  intersect_zero_radius_unit_miss _ _ rfl (by norm_num [Vec3.dot])

/-- Encoding a channel is unchanged by first clamping it into [0,1]:
negative channels encode to NaN, which the `as u8` cast sends to 0, the same
byte that the clamped channel 0 encodes to; channels above 1 encode to a
value at least 1, which saturates to byte 255, the same as channel 1. -/
theorem encode_channel_clamp (x : ℝ) :
    encode_channel (max (min x 1) 0) = encode_channel x := by
  rcases lt_or_le x 0 with hx | hx
  · have h1 : min x 1 = x := min_eq_left (le_of_lt (lt_trans hx one_pos))
    have h2 : max x 0 = 0 := max_eq_right hx.le
    rw [h1, h2]
    have hz : gamma_encode 0 = some 0 := by
      rw [gamma_encode, if_neg (by norm_num),
        Real.zero_rpow (show (1 / GAMMA : ℝ) ≠ 0 by norm_num [GAMMA])]
    have hn : gamma_encode x = none := by rw [gamma_encode, if_pos hx]
    norm_num [encode_channel, hz, hn, as_u8]
  · rcases le_or_lt x 1 with hx1 | hx1
    · rw [min_eq_left hx1, max_eq_left hx]
    · rw [min_eq_right hx1.le, max_eq_left zero_le_one]
      have he1 : gamma_encode 1 = some 1 := by
        simp [gamma_encode, Real.one_rpow]
      have hex : gamma_encode x = some (x ^ (1 / GAMMA)) := by
        rw [gamma_encode, if_neg (not_lt.2 hx)]
      have hge : (1 : ℝ) ≤ x ^ (1 / GAMMA) := by
        have h := Real.rpow_le_rpow zero_le_one hx1.le
          (by norm_num [GAMMA] : (0 : ℝ) ≤ 1 / GAMMA)
        rwa [Real.one_rpow] at h
      simp only [encode_channel, he1, hex]
      rw [as_u8_of_le _ (by norm_num), as_u8_of_le _ (by nlinarith [hge])]

/-- C9: the 8-bit encoding of any color equals the 8-bit encoding of its
clamped form, so out-of-range channels are silently brought into range. -/
theorem to_rgba_eq_to_rgba_clamp (c : Color) :
    Color.to_rgba c = Color.to_rgba (Color.clamp c) := by
  simp only [Color.to_rgba, Color.clamp, encode_channel_clamp]

/-! ### Bridging rpow with rational exponents to integer powers -/

/-- Compare `x ^ (5/11)` with a bound by raising both sides to the 11th
power. -/
theorem rpow_five_elevenths_le_iff (x b : ℝ) (hx : 0 ≤ x) (hb : 0 ≤ b) :
    b ≤ x ^ ((5 : ℝ) / 11) ↔ b ^ (11 : ℕ) ≤ x ^ (5 : ℕ) := by
  have h5 : ((5 : ℝ) / 11) * ((11 : ℕ) : ℝ) = ((5 : ℕ) : ℝ) := by norm_num
  have key : (x ^ ((5 : ℝ) / 11)) ^ (11 : ℕ) = x ^ (5 : ℕ) := by
    rw [← Real.rpow_natCast (x ^ ((5 : ℝ) / 11)) 11, ← Real.rpow_mul hx, h5,
      Real.rpow_natCast]
  rw [← key]
  exact (pow_le_pow_iff_left₀ hb (Real.rpow_nonneg hx _) (by norm_num)).symm

/-- Strict version of the previous lemma, upper bound side. -/
theorem rpow_five_elevenths_lt_iff (x b : ℝ) (hx : 0 ≤ x) (hb : 0 ≤ b) :
    x ^ ((5 : ℝ) / 11) < b ↔ x ^ (5 : ℕ) < b ^ (11 : ℕ) := by
  have h5 : ((5 : ℝ) / 11) * ((11 : ℕ) : ℝ) = ((5 : ℕ) : ℝ) := by norm_num
  have key : (x ^ ((5 : ℝ) / 11)) ^ (11 : ℕ) = x ^ (5 : ℕ) := by
    rw [← Real.rpow_natCast (x ^ ((5 : ℝ) / 11)) 11, ← Real.rpow_mul hx, h5,
      Real.rpow_natCast]
  rw [← key]
  exact (pow_lt_pow_iff_left₀ (Real.rpow_nonneg hx _) hb (by norm_num)).symm

/-- Compare `x ^ (11/5)` with a bound by raising both sides to the 5th
power. -/
theorem rpow_eleven_fifths_lt_iff (x b : ℝ) (hx : 0 ≤ x) (hb : 0 ≤ b) :
    x ^ ((11 : ℝ) / 5) < b ↔ x ^ (11 : ℕ) < b ^ (5 : ℕ) := by
  have h11 : ((11 : ℝ) / 5) * ((5 : ℕ) : ℝ) = ((11 : ℕ) : ℝ) := by norm_num
  have key : (x ^ ((11 : ℝ) / 5)) ^ (5 : ℕ) = x ^ (11 : ℕ) := by
    rw [← Real.rpow_natCast (x ^ ((11 : ℝ) / 5)) 5, ← Real.rpow_mul hx, h11,
      Real.rpow_natCast]
  rw [← key]
  exact (pow_lt_pow_iff_left₀ (Real.rpow_nonneg hx _) hb (by norm_num)).symm

/-- C5 counterexample: for the color (0.5, 0.5, 0.5) the byte round-trip
`from_rgba (to_rgba c)` yields a red channel `(186/255)^2.2 ≈ 0.49946`,
which differs from 0.5 by more than 1/10000 — 8-bit quantization error, not
floating-point tolerance.  This refutes the claimed round-trip recovery. -/
theorem roundtrip_quantization_error :
    ∃ c' : Color,
      Color.from_rgba (Color.to_rgba ⟨1 / 2, 1 / 2, 1 / 2⟩) = some c' ∧
        1 / 10000 < |c'.red - 1 / 2| := by
  have henc : gamma_encode (1 / 2) = some ((1 / 2 : ℝ) ^ ((5 : ℝ) / 11)) := by
    rw [gamma_encode, if_neg (by norm_num),
      show (1 / GAMMA : ℝ) = (5 : ℝ) / 11 by norm_num [GAMMA]]
  have hlow : (186 : ℝ) ≤ (1 / 2 : ℝ) ^ ((5 : ℝ) / 11) * 255 := by
    have h : ((186 : ℝ) / 255) ≤ (1 / 2 : ℝ) ^ ((5 : ℝ) / 11) := by
      rw [rpow_five_elevenths_le_iff _ _ (by norm_num) (by norm_num)]
      norm_num
    nlinarith [h]
  have hhigh : (1 / 2 : ℝ) ^ ((5 : ℝ) / 11) * 255 < 187 := by
    have h : (1 / 2 : ℝ) ^ ((5 : ℝ) / 11) < (187 : ℝ) / 255 := by
      rw [rpow_five_elevenths_lt_iff _ _ (by norm_num) (by norm_num)]
      norm_num
    nlinarith [h]
  have hfloor : ⌊(1 / 2 : ℝ) ^ ((5 : ℝ) / 11) * 255⌋ = 186 := by
    rw [Int.floor_eq_iff]
    constructor
    · exact_mod_cast hlow
    · push_cast
      linarith [hhigh]
  have hbyte : encode_channel (1 / 2 : ℝ) = 186 := by
    simp only [encode_channel, henc, as_u8, hfloor]
    decide
  have hto : Color.to_rgba ⟨1 / 2, 1 / 2, 1 / 2⟩ =
      Rgba.from_channels 186 186 186 255 := by
    simp only [Color.to_rgba, hbyte]
  have hdec : gamma_decode ((186 : ℝ) / 255) =
      some (((186 : ℝ) / 255) ^ ((11 : ℝ) / 5)) := by
    rw [gamma_decode, if_neg (by norm_num),
      show (GAMMA : ℝ) = (11 : ℝ) / 5 by norm_num [GAMMA]]
  refine ⟨⟨((186 : ℝ) / 255) ^ ((11 : ℝ) / 5),
    ((186 : ℝ) / 255) ^ ((11 : ℝ) / 5), ((186 : ℝ) / 255) ^ ((11 : ℝ) / 5)⟩,
    ?_, ?_⟩
  · rw [hto]
    simp only [Color.from_rgba, Rgba.from_channels, Nat.cast_ofNat, hdec]
  · have hv : ((186 : ℝ) / 255) ^ ((11 : ℝ) / 5) < 4999 / 10000 := by
      rw [rpow_eleven_fifths_lt_iff _ _ (by norm_num) (by norm_num)]
      norm_num
    have hvnn : 0 ≤ ((186 : ℝ) / 255) ^ ((11 : ℝ) / 5) :=
      Real.rpow_nonneg (by norm_num) _
    rw [abs_of_nonpos (by linarith)]
    linarith

/-- C5 (amended): the gamma encode and decode maps themselves (exponents
1/2.2 and 2.2) are exact inverses on the channel domain [0, 1]; it is only
the 8-bit byte round-trip that loses precision. -/
theorem gamma_encode_decode_inverse (x : ℝ) (h0 : 0 ≤ x) (h1 : x ≤ 1) :
    (gamma_encode x).bind gamma_decode = some x := by
  have hx1 : x ≤ 1 := h1
  rw [gamma_encode, if_neg (not_lt.2 h0), Option.some_bind, gamma_decode,
    if_neg (not_lt.2 (Real.rpow_nonneg h0 _))]
  have key : (x ^ (1 / GAMMA)) ^ GAMMA = x := by
    rw [← Real.rpow_mul h0, show (1 / GAMMA) * GAMMA = (1 : ℝ) by
      norm_num [GAMMA], Real.rpow_one]
  rw [key]

/-- C5 witness: the amended inverse theorem instantiated at channel value
0.5, whose hypotheses 0 ≤ 0.5 and 0.5 ≤ 1 hold. -/
theorem gamma_encode_decode_inverse_witness :
    (0 : ℝ) ≤ 1 / 2 ∧ (1 / 2 : ℝ) ≤ 1 ∧
      (gamma_encode (1 / 2)).bind gamma_decode = some (1 / 2 : ℝ) :=
  ⟨by norm_num, by norm_num,
    gamma_encode_decode_inverse (1 / 2) (by norm_num) (by norm_num)⟩

/-- A degenerate scene with zero width and height (legal `u32` values). -/
noncomputable def sceneEmpty : Scene :=
  { width := 0, height := 0, fov := 90, sphere := scene800.sphere }

/-- A 1×1 scene, violating the aspect precondition with a nonempty pixel
loop. -/
noncomputable def sceneTall : Scene :=
  { width := 1, height := 1, fov := 90, sphere := scene800.sphere }

/-- A `forRange` loop aborts exactly when some executed iteration aborts. -/
theorem forRange_eq_none_iff {α : Type} (f : ℕ → Option α) (n : ℕ) :
    forRange f n = none ↔ ∃ i, i < n ∧ f i = none := by
  induction n with
  | zero => simp [forRange]
  | succ n ih =>
    rw [forRange]
    cases hfn : forRange f n with
    | none =>
      have hex : ∃ i, i < n ∧ f i = none := ih.1 hfn
      simp only [Option.none_bind]
      constructor
      · intro _
        obtain ⟨i, hi, h⟩ := hex
        exact ⟨i, Nat.lt_succ_of_lt hi, h⟩
      · intro _
        trivial
    | some l =>
      have hnot : ¬ ∃ i, i < n ∧ f i = none := by
        intro hex
        rw [ih.2 hex] at hfn
        exact Option.noConfusion hfn
      simp only [Option.some_bind, Option.map_eq_none']
      constructor
      · intro h
        exact ⟨n, Nat.lt_succ_self n, h⟩
      · rintro ⟨i, hi, hnone⟩
        rcases Nat.lt_succ_iff_lt_or_eq.1 hi with hlt | heq
        · exact absurd ⟨i, hlt, hnone⟩ hnot
        · rwa [← heq]

/-- A successful `forRange` run has one entry per iteration, and entry `i`
is the value returned by iteration `i`. -/
theorem forRange_some_spec {α : Type} (f : ℕ → Option α) :
    ∀ (n : ℕ) (l : List α), forRange f n = some l →
      l.length = n ∧ ∀ i, i < n → l[i]? = f i := by
  intro n
  induction n with
  | zero =>
    intro l h
    rw [forRange] at h
    simp only [Option.some.injEq] at h
    subst h
    exact ⟨rfl, fun i hi => absurd hi (Nat.not_lt_zero i)⟩
  | succ n ih =>
    intro l h
    rw [forRange] at h
    cases hfn : forRange f n with
    | none =>
      rw [hfn] at h
      simp at h
    | some l' =>
      rw [hfn] at h
      simp only [Option.some_bind] at h
      cases hf : f n with
      | none =>
        rw [hf] at h
        simp at h
      | some v =>
        rw [hf] at h
        simp only [Option.map_some', Option.some.injEq] at h
        obtain ⟨hlen, hget⟩ := ih l' hfn
        subst h
        refine ⟨by simp [hlen], ?_⟩
        intro i hi
        rcases Nat.lt_succ_iff_lt_or_eq.1 hi with hlt | heq
        · rw [List.getElem?_append_left (by rw [hlen]; exact hlt)]
          exact hget i hlt
        · subst heq
          rw [← hlen, List.getElem?_concat_length, hlen, hf]

/-- C8 counterexample: the 0×0 scene has width ≤ height, yet `render` does
NOT abort — both pixel loops are empty, so `create_prime`'s assertion is
never executed and `render` returns the empty image. -/
theorem render_empty_scene_no_abort :
    sceneEmpty.width ≤ sceneEmpty.height ∧ render sceneEmpty = some [] := by
  constructor
  · exact Nat.le_refl 0
  · rw [render, show sceneEmpty.width = 0 from rfl, forRange]

/-- C8 (amended): `create_prime` itself aborts on every scene with
width ≤ height; `render` aborts exactly when width ≤ height AND the pixel
loop is nonempty (width > 0); and for width > height both `create_prime`
and the full per-pixel computation are total (always return a value). -/
theorem assert_failure_mode :
    (∀ (scene : Scene) (x y : ℕ), scene.width ≤ scene.height →
        Ray.create_prime x y scene = none) ∧
    (∀ scene : Scene,
        render scene = none ↔ 0 < scene.width ∧ scene.width ≤ scene.height) ∧
    (∀ (scene : Scene) (x y : ℕ), scene.height < scene.width →
        (Ray.create_prime x y scene).isSome ∧ (renderPixel scene x y).isSome) := by
  refine ⟨?_, ?_, ?_⟩
  · intro scene x y h
    rw [Ray.create_prime, if_neg (by omega)]
  · intro scene
    rw [render, forRange_eq_none_iff]
    constructor
    · rintro ⟨x, hx, hcol⟩
      rw [forRange_eq_none_iff] at hcol
      obtain ⟨y, hy, hpix⟩ := hcol
      rw [renderPixel, Option.map_eq_none', Ray.create_prime] at hpix
      by_cases hwh : scene.height < scene.width
      · rw [if_pos hwh] at hpix
        exact Option.noConfusion hpix
      · exact ⟨by omega, by omega⟩
    · rintro ⟨hw, hwh⟩
      refine ⟨0, hw, ?_⟩
      rw [forRange_eq_none_iff]
      refine ⟨0, by omega, ?_⟩
      rw [renderPixel, Ray.create_prime, if_neg (by omega)]
      rfl
  · intro scene x y h
    constructor
    · rw [Ray.create_prime, if_pos h]
      rfl
    · rw [renderPixel, Ray.create_prime, if_pos h]
      rfl

/-- C8 witness: the amended theorem instantiated at concrete scenes — the
1×1 scene (assert fires: both `create_prime` and `render` abort) and the
800×600 scene (no abort). -/
theorem assert_failure_mode_witness :
    Ray.create_prime 0 0 sceneTall = none ∧ render sceneTall = none ∧
      (Ray.create_prime 0 0 scene800).isSome :=
  ⟨assert_failure_mode.1 sceneTall 0 0 (Nat.le_refl 1),
    (assert_failure_mode.2.1 sceneTall).2 ⟨Nat.one_pos, Nat.le_refl 1⟩,
    (assert_failure_mode.2.2 scene800 0 0 (by norm_num [scene800])).1⟩

/-- For a 90-degree field of view the adjustment factor is tan(π/4) = 1. -/
theorem fov_adjustment_scene800 : fov_adjustment scene800 = 1 := by
  rw [fov_adjustment, toRadians, show scene800.fov = (90 : ℝ) from rfl,
    show (90 : ℝ) * Real.pi / 180 / 2 = Real.pi / 4 by ring,
    Real.tan_pi_div_four]

/-- When the aspect assertion holds, `create_prime` returns the normalized
sensor direction from the origin. -/
theorem create_prime_eq_some (x y : ℕ) (scene : Scene)
    (h : scene.height < scene.width) :
    Ray.create_prime x y scene = some
      { origin := ⟨0, 0, 0⟩
        direction := Vec3.normalize
          ⟨sensor scene x * fov_adjustment scene * aspectRatio scene,
           -(sensor scene y) * fov_adjustment scene,
           -1⟩ } := by
  rw [Ray.create_prime, if_pos h]

/-- A vector with positive self-dot-product normalizes to self-dot-product
exactly 1. -/
theorem dot_normalize_self (v : Vec3) (hv : 0 < Vec3.dot v v) :
    Vec3.dot (Vec3.normalize v) (Vec3.normalize v) = 1 := by
  rw [Vec3.normalize, Vec3.dot_smul_self, div_pow, one_pow,
    Real.sq_sqrt hv.le, one_div, inv_mul_cancel₀ (ne_of_gt hv)]

/-- C7: for every valid pixel of every scene satisfying the aspect invariant
width > height, the prime ray exists, its origin is exactly (0,0,0), and its
direction has Euclidean norm exactly 1. -/
theorem create_prime_unit_direction_origin (scene : Scene) (x y : ℕ)
    (_hx : x < scene.width) (_hy : y < scene.height)
    (hwh : scene.height < scene.width) :
    ∃ r : Ray, Ray.create_prime x y scene = some r ∧
      r.origin = ⟨0, 0, 0⟩ ∧
      Real.sqrt (Vec3.dot r.direction r.direction) = 1 := by
  refine ⟨_, create_prime_eq_some x y scene hwh, rfl, ?_⟩
  have hv : 0 < Vec3.dot
      ⟨sensor scene x * fov_adjustment scene * aspectRatio scene,
       -(sensor scene y) * fov_adjustment scene, -1⟩
      ⟨sensor scene x * fov_adjustment scene * aspectRatio scene,
       -(sensor scene y) * fov_adjustment scene, -1⟩ := by
    simp only [Vec3.dot]
    nlinarith [sq_nonneg (sensor scene x * fov_adjustment scene *
      aspectRatio scene), sq_nonneg (sensor scene y * fov_adjustment scene)]
  rw [dot_normalize_self _ hv, Real.sqrt_one]

/-- C7 witness: the theorem instantiated at pixel (0,0) of the 800×600
scene, with all three hypotheses discharged concretely. -/
theorem create_prime_unit_direction_origin_witness :
    0 < scene800.width ∧ 0 < scene800.height ∧
      scene800.height < scene800.width ∧
      ∃ r : Ray, Ray.create_prime 0 0 scene800 = some r ∧
        r.origin = ⟨0, 0, 0⟩ ∧
        Real.sqrt (Vec3.dot r.direction r.direction) = 1 :=
  ⟨by norm_num [scene800], by norm_num [scene800], by norm_num [scene800],
    create_prime_unit_direction_origin scene800 0 0 (by norm_num [scene800])
      (by norm_num [scene800]) (by norm_num [scene800])⟩

/-- C1 (code bug exhibit): the `sensor` mapping divides the y pixel center
by the WIDTH, not the height.  At y = 300 in the 800×600 scene the code
computes ((300.5)/800)·2 − 1 = −199/800, while the per-axis mapping the
spec describes would compute ((300.5)/600)·2 − 1 = 1/600; the two differ. -/
theorem sensor_divides_by_width :
    sensor scene800 300 = -(199 / 800) ∧
      ((300 : ℝ) + 0.5) / (scene800.height : ℝ) * 2 - 1 = 1 / 600 ∧
      sensor scene800 300 ≠ ((300 : ℝ) + 0.5) / (scene800.height : ℝ) * 2 - 1 := by
  refine ⟨?_, ?_, ?_⟩ <;> norm_num [sensor, scene800]

/-- Concrete prime ray for the "center" pixel (400, 300) of the 800×600
scene: because BOTH sensor axes divide by the width, the unnormalized
direction is (1/600, 199/800, -1) — tilted far upward, not (≈0, ≈0, -1). -/
theorem create_prime_400_300 :
    Ray.create_prime 400 300 scene800 = some
      { origin := ⟨0, 0, 0⟩
        direction := Vec3.normalize ⟨1 / 600, 199 / 800, -1⟩ } := by
  have hv : (⟨sensor scene800 400 * fov_adjustment scene800 *
      aspectRatio scene800,
      -(sensor scene800 300) * fov_adjustment scene800, -1⟩ : Vec3) =
      ⟨1 / 600, 199 / 800, -1⟩ := by
    refine Vec3.ext_mk ?_ ?_ ?_
    · rw [fov_adjustment_scene800]
      norm_num [sensor, aspectRatio, scene800]
    · rw [fov_adjustment_scene800]
      norm_num [sensor, scene800]
    · norm_num
  rw [create_prime_eq_some 400 300 scene800 (by norm_num [scene800]), hv]

/-- Concrete prime ray for pixel (400, 400) of the 800×600 scene: the
unnormalized direction (1/600, -1/800, -1) points almost exactly at the
sphere center (0,0,-5). -/
theorem create_prime_400_400 :
    Ray.create_prime 400 400 scene800 = some
      { origin := ⟨0, 0, 0⟩
        direction := Vec3.normalize ⟨1 / 600, -(1 / 800), -1⟩ } := by
  have hv : (⟨sensor scene800 400 * fov_adjustment scene800 *
      aspectRatio scene800,
      -(sensor scene800 400) * fov_adjustment scene800, -1⟩ : Vec3) =
      ⟨1 / 600, -(1 / 800), -1⟩ := by
    refine Vec3.ext_mk ?_ ?_ ?_
    · rw [fov_adjustment_scene800]
      norm_num [sensor, aspectRatio, scene800]
    · rw [fov_adjustment_scene800]
      norm_num [sensor, scene800]
    · norm_num
  rw [create_prime_eq_some 400 400 scene800 (by norm_num [scene800]), hv]

/-- Concrete prime ray for the corner pixel (0, 0) of the 800×600 scene. -/
theorem create_prime_0_0 :
    Ray.create_prime 0 0 scene800 = some
      { origin := ⟨0, 0, 0⟩
        direction := Vec3.normalize ⟨-(799 / 600), 799 / 800, -1⟩ } := by
  have hv : (⟨sensor scene800 0 * fov_adjustment scene800 *
      aspectRatio scene800,
      -(sensor scene800 0) * fov_adjustment scene800, -1⟩ : Vec3) =
      ⟨-(799 / 600), 799 / 800, -1⟩ := by
    refine Vec3.ext_mk ?_ ?_ ?_
    · rw [fov_adjustment_scene800]
      norm_num [sensor, aspectRatio, scene800]
    · rw [fov_adjustment_scene800]
      norm_num [sensor, scene800]
    · norm_num
  rw [create_prime_eq_some 0 0 scene800 (by norm_num [scene800]), hv]

/-- C2 counter-evidence: the ray through the center pixel (W/2, H/2) =
(400, 300) of the 800×600 scene at fov 90 has a direction whose y-component
exceeds 1/5 (it is ≈ 0.2414), so the direction is NOT approximately
(0, 0, -1). -/
theorem center_pixel_direction_tilted :
    ∃ r : Ray, Ray.create_prime 400 300 scene800 = some r ∧
      1 / 5 < r.direction.y := by
  refine ⟨_, create_prime_400_300, ?_⟩
  have hy : (Vec3.normalize ⟨1 / 600, 199 / 800, -1⟩).y =
      1 / Real.sqrt ((1 / 600) * (1 / 600) + (199 / 800) * (199 / 800) +
        (-1) * (-1)) * (199 / 800) := by
    rw [Vec3.normalize]
    simp only [Vec3.smul, Vec3.dot]
  rw [hy, show ((1 : ℝ) / 600) * (1 / 600) + (199 / 800) * (199 / 800) +
    (-1) * (-1) = 6116425 / 5760000 by norm_num]
  have hsq : Real.sqrt (6116425 / 5760000) < 995 / 800 := by
    rw [Real.sqrt_lt' (by norm_num)]
    norm_num
  have hpos : (0 : ℝ) < Real.sqrt (6116425 / 5760000) :=
    Real.sqrt_pos.2 (by norm_num)
  rw [div_mul_eq_mul_div, one_mul, lt_div_iff₀ hpos]
  nlinarith [hsq, hpos]

/-- Intersection against a normalized direction, restated with exact
rational arithmetic: the square root introduced by normalization cancels. -/
theorem intersect_normalize_iff (s : Sphere) (o v : Vec3)
    (hv : 0 < Vec3.dot v v) :
    Sphere.intersect s ⟨o, Vec3.normalize v⟩ ↔
      Vec3.dot (Vec3.sub s.center o) (Vec3.sub s.center o) -
        Vec3.dot (Vec3.sub s.center o) v * Vec3.dot (Vec3.sub s.center o) v /
          Vec3.dot v v < s.radius * s.radius := by
  have key : Vec3.dot (Vec3.sub s.center o) (Vec3.normalize v) *
      Vec3.dot (Vec3.sub s.center o) (Vec3.normalize v) =
      Vec3.dot (Vec3.sub s.center o) v * Vec3.dot (Vec3.sub s.center o) v /
        Vec3.dot v v := by
    rw [Vec3.normalize, Vec3.dot_smul_right]
    set q := Vec3.dot v v with hq
    have hs : Real.sqrt q * Real.sqrt q = q := Real.mul_self_sqrt hv.le
    have hne : Real.sqrt q ≠ 0 := ne_of_gt (Real.sqrt_pos.2 hv)
    rw [← hs]
    field_simp
  simp only [Sphere.intersect]
  rw [key]

/-- In the 800×600 scene, pixel (400, 300) — the image center — MISSES the
sphere: the exact perpendicular distance-squared is 8910625/6116425 ≈ 1.457,
which is not below radius² = 1.  The pixel is written as background black. -/
theorem renderPixel_400_300 : renderPixel scene800 400 300 = some rgbaBlack := by
  have hmiss : ¬ scene800.sphere.intersect
      ⟨⟨0, 0, 0⟩, Vec3.normalize ⟨1 / 600, 199 / 800, -1⟩⟩ := by
    rw [intersect_normalize_iff _ _ _ (by norm_num [Vec3.dot])]
    norm_num [Vec3.dot, Vec3.sub, scene800]
  rw [renderPixel, create_prime_400_300, Option.map_some', if_neg hmiss]

/-- In the 800×600 scene, pixel (400, 400) HITS the sphere (the silhouette
is displaced downward by the width-division bug): the distance-squared is
625/5760025 ≈ 0.0001. -/
theorem renderPixel_400_400 :
    renderPixel scene800 400 400 = some (scene800.sphere.color.to_rgba) := by
  have hhit : scene800.sphere.intersect
      ⟨⟨0, 0, 0⟩, Vec3.normalize ⟨1 / 600, -(1 / 800), -1⟩⟩ := by
    rw [intersect_normalize_iff _ _ _ (by norm_num [Vec3.dot])]
    norm_num [Vec3.dot, Vec3.sub, scene800]
  rw [renderPixel, create_prime_400_400, Option.map_some', if_pos hhit]

/-- In the 800×600 scene, the corner pixel (0, 0) misses the sphere. -/
theorem renderPixel_0_0 : renderPixel scene800 0 0 = some rgbaBlack := by
  have hmiss : ¬ scene800.sphere.intersect
      ⟨⟨0, 0, 0⟩, Vec3.normalize ⟨-(799 / 600), 799 / 800, -1⟩⟩ := by
    rw [intersect_normalize_iff _ _ _ (by norm_num [Vec3.dot])]
    norm_num [Vec3.dot, Vec3.sub, scene800]
  rw [renderPixel, create_prime_0_0, Option.map_some', if_neg hmiss]

/-- C3 (code bug exhibit): rendering the 800×600 / fov 90 / sphere-at-
(0,0,-5) scene succeeds and produces an image in which the center pixel
(400, 300) is BACKGROUND BLACK (a miss, refuting the claimed hit), the
corner pixel (0, 0) is background black (as claimed), and the displaced
pixel (400, 400) carries the sphere's gamma-encoded color (the silhouette
is shifted by the width-division bug in the sensor mapping). -/
theorem render_scene800_pixels :
    ∃ img : List (List Rgba), render scene800 = some img ∧
      (∃ col : List Rgba, img[400]? = some col ∧
        col[300]? = some rgbaBlack ∧
        col[400]? = some (scene800.sphere.color.to_rgba)) ∧
      (∃ col0 : List Rgba, img[0]? = some col0 ∧
        col0[0]? = some rgbaBlack) := by
  have hpix : ∀ x y : ℕ, (renderPixel scene800 x y).isSome := by
    intro x y
    rw [renderPixel, Ray.create_prime,
      if_pos (by norm_num [scene800] : scene800.height < scene800.width)]
    rfl
  have hcol : ∀ x : ℕ,
      (forRange (fun y => renderPixel scene800 x y) scene800.height).isSome := by
    intro x
    refine Option.ne_none_iff_isSome.1 ?_
    rw [Ne, forRange_eq_none_iff]
    rintro ⟨i, hi, hnone⟩
    have h := hpix x i
    rw [hnone] at h
    simp at h
  have hrender : render scene800 ≠ none := by
    rw [Ne, render, forRange_eq_none_iff]
    rintro ⟨i, hi, hnone⟩
    have h := hcol i
    rw [hnone] at h
    simp at h
  obtain ⟨img, himg⟩ := Option.ne_none_iff_exists'.1 hrender
  have himg' : forRange
      (fun x => forRange (fun y => renderPixel scene800 x y) scene800.height)
      scene800.width = some img := by
    rw [← render]
    exact himg
  obtain ⟨hlen, hget⟩ := forRange_some_spec _ scene800.width img himg'
  refine ⟨img, himg, ?_, ?_⟩
  · obtain ⟨col, hcolval⟩ := Option.isSome_iff_exists.1 (hcol 400)
    obtain ⟨hclen, hcget⟩ := forRange_some_spec _ scene800.height col hcolval
    refine ⟨col, ?_, ?_, ?_⟩
    · rw [hget 400 (by norm_num [scene800])]
      exact hcolval
    · rw [hcget 300 (by norm_num [scene800])]
      exact renderPixel_400_300
    · rw [hcget 400 (by norm_num [scene800])]
      exact renderPixel_400_400
  · obtain ⟨col0, hcolval0⟩ := Option.isSome_iff_exists.1 (hcol 0)
    obtain ⟨hclen0, hcget0⟩ := forRange_some_spec _ scene800.height col0 hcolval0
    refine ⟨col0, ?_, ?_⟩
    · rw [hget 0 (by norm_num [scene800])]
      exact hcolval0
    · rw [hcget0 0 (by norm_num [scene800])]
      exact renderPixel_0_0
